import Mathlib

/-!
Verification of the `websocket_core` authentication module.

The source of truth is `src/auth/mod.rs`: the `AuthMode` dispatcher
(`AuthMode::validate`), the extraction helpers `extract_token_from_header`
and `extract_token_from_wsframe`, and the request/mode data model.

Strings are embedded as `List Char`, header values as byte lists
(`List Nat`), and the `serde_json::Value` tree as the inductive
`json.Value`.  Rust's `str::trim_start_matches` / `str::trim_end_matches`
are embedded as fuel-based total functions (the fuel `s.length` dominates
the number of removal steps, see the lemmas below).

The submodules `location.rs`, `jwt.rs` and `apikey.rs` of this repository
are not available; the definitions below that come from them are marked
`Modelled from the spec:` and follow spec sections 3, 4.1, 4.3, 4.4
together with the unit tests in `src/auth/mod.rs`.  The external
collaborators (the JWT library's signature verification and claim
decoding, the keyed MAC, the payload serialization, the clock) are
bundled in `CryptoEnv` and quantified over in the theorems.

Rust panics (`unreachable!`, `Option::expect`) are distinguished from
ordinary `ErrorUnauthorized` rejections by the result type `VResult`.
Error values are the literal `ErrorUnauthorized` message strings built by
the source.
-/

namespace WebsocketCore

/-- Text, embedded as a list of characters. -/
abbrev Str : Type := List Char

/-- An HTTP header value: a raw byte sequence (actix `HeaderValue`). -/
abbrev HeaderValue : Type := List Nat

/-- An HTTP header map (actix `HeaderMap`): an association list from
header names to raw values.  Names are taken to be already normalized;
`headerGet` is lookup of the first binding. -/
abbrev HeaderMap : Type := List (Str × HeaderValue)

/-- Lookup in a header map (actix `HeaderMap::get`). -/
def headerGet (header : HeaderMap) (name : Str) : Option HeaderValue :=
  (header.find? (fun e => e.fst == name)).map (fun e => e.snd)

/-- Conversion of a header value to text (actix `HeaderValue::to_str`):
succeeds exactly when every byte is visible ASCII (or tab); the error
carries the `ToStrError` display string, as in
`.map_err(|e| ErrorUnauthorized(e.to_string()))`. -/
def headerValueToStr (value : HeaderValue) : Except Str Str :=
  if value.all (fun b => b == 9 || (decide (32 ≤ b) && decide (b < 127))) then
    Except.ok (value.map Char.ofNat)
  else
    Except.error "failed to convert header to a str".toList

/-- Fuel-based worker for Rust `str::trim_start_matches`: while the
pattern is nonempty and is a prefix of the text, remove it. -/
def trimStartAux (pat : Str) : Nat → Str → Str
  | 0, s => s
  | n + 1, s =>
    if pat ≠ [] ∧ pat.isPrefixOf s = true then
      trimStartAux pat n (s.drop pat.length)
    else s

/-- Rust `str::trim_start_matches pat`: repeatedly removes every leading
occurrence of `pat`.  `s.length` steps of fuel always suffice
(each removal step shortens the text by at least one character). -/
def trimStartMatches (pat s : Str) : Str :=
  trimStartAux pat s.length s

/-- Rust `str::trim_end_matches pat`: repeatedly removes every trailing
occurrence of `pat`.  Removing trailing occurrences is removing leading
occurrences of the reversed pattern from the reversed text. -/
def trimEndMatches (pat s : Str) : Str :=
  (trimStartMatches pat.reverse s.reverse).reverse

/-- Concatenation of `n` copies of `pat` (used to state the repeated
stripping behaviour of `trim_start_matches` / `trim_end_matches`). -/
def repeatPat (pat : Str) (n : Nat) : Str :=
  (List.replicate n pat).flatten

/-- The compiled header location template (`AuthHeader` from
`location.rs`): a header name and the `(before, after)` boundary text
around the token, an empty side being `none`.  The component shapes are
pinned by the unit test `test_instantiate_auth_header` in
`src/auth/mod.rs`. -/
structure AuthHeader where
  field : Str
  token_bound : Option Str × Option Str
deriving DecidableEq

/-- The token placeholder marker of a header template (pinned by the
unit test: "Bearer {token}" splits as prefix-boundary "Bearer "). -/
def token_marker : Str := "{token}".toList

/-- All positions at which `pat` occurs in `t`. -/
def markerOccurrences (pat t : Str) : List Nat :=
  (List.range (t.length + 1)).filter (fun i => pat.isPrefixOf (t.drop i))

/-- Modelled from the spec: `AuthHeader::new` lives in `location.rs`,
which is not under `src/`.  Spec section 4.1: the template string must
contain exactly one occurrence of the token placeholder marker, else
construction returns `None`; the text before the marker becomes the
prefix boundary and the text after it the suffix boundary, an empty side
becoming `None`.  The splitting agrees with the unit test
`test_instantiate_auth_header` in `src/auth/mod.rs`. -/
def AuthHeader.new (fieldName template : Str) : Option AuthHeader :=
  match markerOccurrences token_marker template with
  | [i] =>
    some ⟨fieldName,
      ((if template.take i = [] then none else some (template.take i)),
       (if template.drop (i + token_marker.length) = [] then none
        else some (template.drop (i + token_marker.length))))⟩
  | _ => none

/-- The API-key field template (`AuthField` from `location.rs`); the
component shapes are pinned by its uses in `src/auth/mod.rs`:
`key_or_token` is passed directly to `extract_token_from_wsframe`, while
`sign` and `payload` are unwrapped with `.expect("AuthField::apikey")`. -/
structure AuthField where
  sign : Option Str
  key_or_token : Str
  payload : Option Str

/-- Credential location (`AuthLocation` from `location.rs`), pinned by
the match arms of `AuthMode::validate` in `src/auth/mod.rs`. -/
inductive AuthLocation where
  | Header (template : AuthHeader)
  | WebSocketFrame (field : AuthField)

namespace json

/-- The generic structured value tree (`serde_json::Value`). -/
inductive Value where
  | null
  | bool (b : Bool)
  | num (n : Int)
  | str (s : Str)
  | arr (elems : List Value)
  | obj (entries : List (Str × Value))

/-- Field access (`serde_json::Value::get` with a string index): a field
lookup on objects, `none` on every other shape. -/
def Value.get (v : Value) (key : Str) : Option Value :=
  match v with
  | Value.obj entries => (entries.find? (fun e => e.fst == key)).map (fun e => e.snd)
  | _ => none

/-- Rust `serde_json::Value::as_str`. -/
def Value.as_str : Value → Option Str
  | Value.str s => some s
  | _ => none

/-- Whether the value is an object (`serde_json::Value::is_object`). -/
def Value.is_object : Value → Bool
  | Value.obj _ => true
  | _ => false

end json

/-- Source `extract_token_from_header` (`src/auth/mod.rs`): look the
field up in the header map (missing field is an error), convert the
value to text (conversion failure is an error), then best-effort trim
the prefix boundary from the start and the suffix boundary from the
end. -/
def extract_token_from_header (template : AuthHeader) (header : HeaderMap) : Except Str Str :=
  match headerGet header template.field with
  | none => Except.error ("Missing field \x27".toList ++ template.field ++ "\x27".toList)
  | some header_value =>
    match headerValueToStr header_value with
    | Except.error e => Except.error e
    | Except.ok t0 =>
      let t1 := match template.token_bound.fst with
        | some non_token => trimStartMatches non_token t0
        | none => t0
      let t2 := match template.token_bound.snd with
        | some non_token => trimEndMatches non_token t1
        | none => t1
      Except.ok t2

/-- Source `extract_token_from_wsframe` (`src/auth/mod.rs`): the frame
must be an object, and the field must be present with a string value;
a missing field and a non-string value share one error message. -/
def extract_token_from_wsframe (field : Str) (dataframe : json.Value) : Except Str Str :=
  match dataframe with
  | json.Value.obj entries =>
    match ((json.Value.obj entries).get field).bind json.Value.as_str with
    | some s => Except.ok s
    | none =>
      Except.error ("\"".toList ++ field ++ "\" not found or it\x27s not a `string`".toList)
  | _ => Except.error "request must be in type object".toList

/-- The claim set decoded from a JWT token (expiry, not-before, issuer,
audience), as far as the spec-selected claims go. -/
structure JwtParts where
  exp : Option Int
  nbf : Option Int
  iss : Option Str
  aud : Option Str

/-- The external collaborators of the validator, quantified over in the
theorems: the JWT library's signature verification and claim decoding,
the current time, the configured expected issuer/audience, the keyed MAC
(HMAC) and the canonical payload serialization. -/
structure CryptoEnv where
  verifySignature : List Nat → Str → Bool
  decodeClaims : Str → JwtParts
  now : Int
  expectedIssuer : Option Str
  expectedAudience : Option Str
  hmac : List Nat → List Nat → List Nat
  serializePayload : json.Value → List Nat

namespace jwt

/-- Claim-selector flags (`jwt::ClaimCode`): which standard claims are
enforced beyond the signature.  Spec section 3. -/
structure ClaimCode where
  exp : Bool
  nbf : Bool
  iss : Bool
  aud : Bool

/-- Spec section 4.3 default: validate none beyond the signature. -/
def ClaimCode.disable_all : ClaimCode := ⟨false, false, false, false⟩

/-- Whether an enabled expiry claim rejects: expiry in the past. -/
def claimExpired (now : Int) : Option Int → Bool
  | some e => decide (e < now)
  | none => false

/-- Whether an enabled not-before claim rejects: not-before in the future. -/
def claimFromFuture (now : Int) : Option Int → Bool
  | some t => decide (now < t)
  | none => false

/-- Modelled from the spec: `ClaimCode::validate` lives in `jwt.rs`,
which is not under `src/`.  Spec section 4.3: verify the signature
against the secret (mismatch is `InvalidSignature`); then, for each
claim enabled in the selector only, reject expiry in the past
(`Expired`), not-before in the future (`NotYetValid`), and
issuer/audience mismatch against the configured expected values
(`ClaimMismatch`); claims not selected are not inspected. -/
def ClaimCode.validate (env : CryptoEnv) (code : ClaimCode) (secret : List Nat) (token : Str) :
    Except Str Unit :=
  if env.verifySignature secret token = false then
    Except.error "InvalidSignature".toList
  else
    let claims := env.decodeClaims token
    if code.exp && claimExpired env.now claims.exp then
      Except.error "Expired".toList
    else if code.nbf && claimFromFuture env.now claims.nbf then
      Except.error "NotYetValid".toList
    else if code.iss && (claims.iss != env.expectedIssuer) then
      Except.error "ClaimMismatch(iss)".toList
    else if code.aud && (claims.aud != env.expectedAudience) then
      Except.error "ClaimMismatch(aud)".toList
    else
      Except.ok ()

end jwt

/-- Byte content of a string (`str::as_bytes`); agrees with UTF-8 on the
ASCII inputs the claims exercise, and is injective, which is all the
theorems use. -/
def strBytes (s : Str) : List Nat := s.map Char.toNat

/-- Decimal text rendering of the nonce, as bytes (the deterministic
nonce canonicalization of spec section 4.4). -/
def natDecimalBytes (n : Nat) : List Nat := strBytes (Nat.repr n).toList

namespace apikey

/-- The candidate assembled by `AuthMode::validate` (`apikey::Data`):
URI path, resolved nonce, and the payload field value.  The field names
and types are pinned by the construction site in `src/auth/mod.rs`. -/
structure Data where
  uri_path : Str
  nonce : Nat
  payload : json.Value

/-- Modelled from the spec: `Data::validate` lives in `apikey.rs`, which
is not under `src/`.  Spec section 4.4: canonicalize the message as the
fixed-order concatenation of the resource path, the decimal nonce and
the canonical payload serialization, compute the keyed MAC over it with
the secret, and compare with the supplied signature bytes; mismatch is
`InvalidSignature`. -/
def Data.validate (env : CryptoEnv) (d : Data) (secret : List Nat) (signature : List Nat) :
    Except Str Unit :=
  let canonical := strBytes d.uri_path ++ natDecimalBytes d.nonce ++ env.serializePayload d.payload
  if env.hmac secret canonical == signature then Except.ok () else
    Except.error "InvalidSignature".toList

end apikey

/-- The two accepted inbound request shapes (`AuthRequest` in
`src/auth/mod.rs`). -/
inductive AuthRequest where
  | HttpHeader (header : HeaderMap)
  | WebsocketFrame (dataframe : json.Value)

/-- The mode configuration (`AuthMode` in `src/auth/mod.rs`).  The
`last_nonce_getter` capability is the injected nonce lookup. -/
inductive AuthMode where
  | JWT (auth_location : AuthLocation) (signing_secret : List Nat) (validate : jwt.ClaimCode)
  | APIKey (auth_field : AuthField) (signing_secret : List Nat) (uri_path : Str)
      (last_nonce_getter : Str → Option Nat)
  | None

/-- Source `impl Default for AuthMode`: the default mode is `None`. -/
def AuthMode.default : AuthMode := AuthMode.None

/-- Source `AuthMode::default_jwt_from`: JWT mode at header
`Authorization` with template "Bearer {token}" and all claim checks
disabled.  The source unwraps the header construction with
`.expect("has {token}")`; the construction succeeds (see
`AuthHeader.new_default_template` below), so the `getD` fallback here is
never taken. -/
def AuthMode.default_jwt_from (signing_secret : List Nat) : AuthMode :=
  AuthMode.JWT
    (AuthLocation.Header
      ((AuthHeader.new "Authorization".toList "Bearer {token}".toList).getD
        ⟨"Authorization".toList, (none, none)⟩))
    signing_secret jwt.ClaimCode.disable_all

/-- Outcome of one `AuthMode::validate` call: success, an ordinary
`ErrorUnauthorized` rejection carrying its message, or a Rust panic
(`unreachable!` / `Option::expect`) carrying the panic message. -/
inductive VResult where
  | ok
  | err (msg : Str)
  | panicked (msg : Str)
deriving DecidableEq

/-- Lift a fallible submodule result into `VResult`. -/
def exceptToVResult : Except Str Unit → VResult
  | Except.ok _ => VResult.ok
  | Except.error m => VResult.err m

/-- The closure `get_payload_from` inside the API-key arm of
`AuthMode::validate`: fetch a field of the frame as a string, a missing
field or non-string value giving the quoted-name not-found error. -/
def get_payload_from (payload : json.Value) (i : Str) : Except Str Str :=
  match (payload.get i).bind json.Value.as_str with
  | some s => Except.ok s
  | none => Except.error ("\"".toList ++ i ++ "\" not found".toList)

/-- Source `AuthMode::validate` (`src/auth/mod.rs`): the one-shot
dispatch `Request × Mode → result`.  `None` always succeeds; `JWT`
extracts the token from the matching request shape (mismatch panics via
`unreachable!`) and runs the claim validator; `APIKey` requires a frame
request (a header request panics via `unreachable!`), unwraps the
`sign`/`payload` field templates (absence panics via `expect`), pulls
the key and the signature, resolves the nonce through the injected
lookup (unknown key is the invalid-key rejection), pulls the payload
field and runs the MAC validator. -/
def AuthMode.validate (env : CryptoEnv) (mode : AuthMode) (request : AuthRequest) : VResult :=
  match mode with
  | AuthMode.None => VResult.ok
  | AuthMode.JWT template secret claim_code =>
    match template, request with
    | AuthLocation.Header t, AuthRequest.HttpHeader headers =>
      match extract_token_from_header t headers with
      | Except.error m => VResult.err m
      | Except.ok token => exceptToVResult (claim_code.validate env secret token)
    | AuthLocation.WebSocketFrame fld, AuthRequest.WebsocketFrame payload =>
      match extract_token_from_wsframe fld.key_or_token payload with
      | Except.error m => VResult.err m
      | Except.ok token => exceptToVResult (claim_code.validate env secret token)
    | _, _ =>
      VResult.panicked "check your `ws_upgrader` or `Actor::handler` implementation".toList
  | AuthMode.APIKey auth_field secret uri_path get_nonce_from =>
    match request with
    | AuthRequest.WebsocketFrame payload =>
      match auth_field.sign with
      | none => VResult.panicked "AuthField::apikey".toList
      | some signature_field =>
        match auth_field.payload with
        | none => VResult.panicked "AuthField::apikey".toList
        | some payload_field =>
          match get_payload_from payload auth_field.key_or_token with
          | Except.error m => VResult.err m
          | Except.ok apikeyStr =>
            match get_payload_from payload signature_field with
            | Except.error m => VResult.err m
            | Except.ok signature =>
              match get_nonce_from apikeyStr with
              | none =>
                VResult.err ("invalid \"".toList ++ auth_field.key_or_token ++ "\"".toList)
              | some nonce =>
                match payload.get payload_field with
                | none =>
                  VResult.err ("\"".toList ++ payload_field ++ "\" not found".toList)
                | some payloadVal =>
                  exceptToVResult
                    (apikey.Data.validate env ⟨uri_path, nonce, payloadVal⟩ secret
                      (strBytes signature))
    | AuthRequest.HttpHeader _ =>
      VResult.panicked "check your `Actor::handler` implementation".toList

/-! Helper lemmas about the boolean `List.isPrefixOf` on character lists. -/

theorem isPrefixOf_append (p t : Str) : p.isPrefixOf (p ++ t) = true := by
  induction p with
  | nil => simp
  | cons a as ih => simp [List.isPrefixOf_cons₂, ih]

theorem length_le_of_isPrefixOf {p s : Str} (h : p.isPrefixOf s = true) :
    p.length ≤ s.length := by
  induction p generalizing s with
  | nil => simp
  | cons a as ih =>
    cases s with
    | nil => simp at h
    | cons b bs =>
      rw [List.isPrefixOf_cons₂, Bool.and_eq_true] at h
      simpa using Nat.succ_le_succ (ih h.2)

theorem append_drop_of_isPrefixOf {p s : Str} (h : p.isPrefixOf s = true) :
    p ++ s.drop p.length = s := by
  induction p generalizing s with
  | nil => simp
  | cons a as ih =>
    cases s with
    | nil => simp at h
    | cons b bs =>
      rw [List.isPrefixOf_cons₂, Bool.and_eq_true] at h
      have hab : a = b := by simpa using h.1
      subst hab
      simpa using ih h.2

/-! Helper lemmas about the trimming functions. -/

theorem trimStartAux_nil (pat : Str) (n : Nat) : trimStartAux pat n [] = [] := by
  cases n with
  | zero => rfl
  | succ n =>
    cases pat with
    | nil => simp [trimStartAux]
    | cons a as => simp [trimStartAux]

theorem trimStartAux_congr (pat : Str) :
    ∀ (k : Nat) (s : Str), s.length ≤ k → ∀ (n m : Nat), s.length ≤ n → s.length ≤ m →
      trimStartAux pat n s = trimStartAux pat m s := by
  intro k
  induction k with
  | zero =>
    intro s hs n m _ _
    have hnil : s = [] := List.eq_nil_of_length_eq_zero (Nat.le_zero.mp hs)
    subst hnil
    rw [trimStartAux_nil, trimStartAux_nil]
  | succ k ih =>
    intro s hs n m hn hm
    cases n with
    | zero =>
      have hnil : s = [] := List.eq_nil_of_length_eq_zero (Nat.le_zero.mp hn)
      subst hnil
      rw [trimStartAux_nil, trimStartAux_nil]
    | succ n =>
      cases m with
      | zero =>
        have hnil : s = [] := List.eq_nil_of_length_eq_zero (Nat.le_zero.mp hm)
        subst hnil
        rw [trimStartAux_nil, trimStartAux_nil]
      | succ m =>
        by_cases hc : pat ≠ [] ∧ pat.isPrefixOf s = true
        · have hplen : 0 < pat.length := List.length_pos.mpr hc.1
          have hble := length_le_of_isPrefixOf hc.2
          have hstep1 : trimStartAux pat (n + 1) s = trimStartAux pat n (s.drop pat.length) := by
            simp only [trimStartAux, if_pos hc]
          have hstep2 : trimStartAux pat (m + 1) s = trimStartAux pat m (s.drop pat.length) := by
            simp only [trimStartAux, if_pos hc]
          have hd : (s.drop pat.length).length = s.length - pat.length :=
            List.length_drop pat.length s
          rw [hstep1, hstep2]
          exact ih (s.drop pat.length) (by omega) n m (by omega) (by omega)
        · simp only [trimStartAux, if_neg hc]

theorem trimStartMatches_head (pat s : Str) (hc : pat ≠ [] ∧ pat.isPrefixOf s = true) :
    trimStartMatches pat s = trimStartMatches pat (s.drop pat.length) := by
  cases s with
  | nil =>
    cases pat with
    | nil => exact absurd rfl hc.1
    | cons a as => simp at hc
  | cons b bs =>
    have hplen : 0 < pat.length := List.length_pos.mpr hc.1
    have hble := length_le_of_isPrefixOf hc.2
    show trimStartAux pat (bs.length + 1) (b :: bs) =
      trimStartAux pat ((b :: bs).drop pat.length).length ((b :: bs).drop pat.length)
    rw [show trimStartAux pat (bs.length + 1) (b :: bs) =
        trimStartAux pat bs.length ((b :: bs).drop pat.length) from by
      simp only [trimStartAux, if_pos hc]]
    have hd : ((b :: bs).drop pat.length).length = (b :: bs).length - pat.length :=
      List.length_drop pat.length (b :: bs)
    exact trimStartAux_congr pat ((b :: bs).drop pat.length).length _ (le_refl _) _ _
      (by simp at hble hd ⊢; omega) (le_refl _)

theorem trimStartMatches_of_not (pat s : Str) (hc : ¬ (pat ≠ [] ∧ pat.isPrefixOf s = true)) :
    trimStartMatches pat s = s := by
  cases s with
  | nil => rfl
  | cons b bs =>
    show trimStartAux pat (bs.length + 1) (b :: bs) = b :: bs
    simp only [trimStartAux, if_neg hc]

theorem trimStartMatches_no_match (pat s : Str) (h : pat.isPrefixOf s = false) :
    trimStartMatches pat s = s := by
  apply trimStartMatches_of_not
  intro hc
  rw [hc.2] at h
  simp at h

theorem trimStartMatches_absorb (pat t : Str) (hp : pat ≠ []) :
    trimStartMatches pat (pat ++ t) = trimStartMatches pat t := by
  rw [trimStartMatches_head pat (pat ++ t) ⟨hp, isPrefixOf_append pat t⟩, List.drop_left]

theorem trimStartMatches_repeat (pat t : Str) (hp : pat ≠ []) (ht : pat.isPrefixOf t = false) :
    ∀ m, trimStartMatches pat (repeatPat pat m ++ t) = t := by
  intro m
  induction m with
  | zero => simpa [repeatPat] using trimStartMatches_no_match pat t ht
  | succ m ih =>
    have hrep : repeatPat pat (m + 1) = pat ++ repeatPat pat m := by
      simp [repeatPat, List.replicate_succ]
    rw [hrep, List.append_assoc, trimStartMatches_absorb pat _ hp, ih]

theorem isSuffixOf_eq_rev (p s : Str) : p.isSuffixOf s = p.reverse.isPrefixOf s.reverse := rfl

theorem trimEndMatches_no_match (pat s : Str) (h : pat.isSuffixOf s = false) :
    trimEndMatches pat s = s := by
  unfold trimEndMatches
  rw [trimStartMatches_no_match pat.reverse s.reverse (by rw [← isSuffixOf_eq_rev]; exact h)]
  exact List.reverse_reverse s

theorem trimEndMatches_absorb (pat u : Str) (hp : pat ≠ []) :
    trimEndMatches pat (u ++ pat) = trimEndMatches pat u := by
  unfold trimEndMatches
  rw [List.reverse_append, trimStartMatches_absorb pat.reverse u.reverse (by simpa using hp)]

theorem repeatPat_succ_right (pat : Str) (n : Nat) :
    repeatPat pat (n + 1) = repeatPat pat n ++ pat := by
  induction n with
  | zero => simp [repeatPat]
  | succ n ih =>
    have h1 : repeatPat pat (n + 2) = pat ++ repeatPat pat (n + 1) := by
      simp [repeatPat, List.replicate_succ]
    have h2 : repeatPat pat (n + 1) = pat ++ repeatPat pat n := by
      simp [repeatPat, List.replicate_succ]
    rw [h1, ih, ← List.append_assoc, ← h2, ih]

theorem trimEndMatches_repeat (pat t : Str) (hp : pat ≠ []) (ht : pat.isSuffixOf t = false) :
    ∀ n, trimEndMatches pat (t ++ repeatPat pat n) = t := by
  intro n
  induction n with
  | zero => simpa [repeatPat] using trimEndMatches_no_match pat t ht
  | succ n ih =>
    rw [repeatPat_succ_right, ← List.append_assoc, trimEndMatches_absorb pat _ hp, ih]

/-! Helper lemmas about the header template construction. -/

theorem token_marker_ne_nil : token_marker ≠ [] := by decide

theorem AuthHeader.new_default_template :
    AuthHeader.new "Authorization".toList "Bearer {token}".toList
      = some ⟨"Authorization".toList, (some "Bearer ".toList, none)⟩ := by decide

theorem mem_markerOccurrences_self (p s : Str) :
    p.length ∈ markerOccurrences token_marker (p ++ token_marker ++ s) := by
  unfold markerOccurrences
  rw [List.mem_filter]
  constructor
  · rw [List.mem_range]
    simp only [List.length_append]
    omega
  · rw [List.append_assoc, List.drop_left]
    exact isPrefixOf_append token_marker s

/-- Claim C8: in `None` mode, `validate` returns success for every
request, of either shape, performing no extraction and no cryptographic
checks (the `None` arm of `AuthMode::validate` is `Ok(())` whatever the
request and whatever the external collaborators do). -/
theorem claim_C8 (env : CryptoEnv) (request : AuthRequest) :
    AuthMode.validate env AuthMode.None request = VResult.ok := rfl

/-- Claim C9: the default value of `AuthMode` is the `None` variant, so
a validator left at its default configuration accepts every request
unconditionally. -/
theorem claim_C9 :
    AuthMode.default = AuthMode.None ∧
    ∀ (env : CryptoEnv) (request : AuthRequest),
      AuthMode.validate env AuthMode.default request = VResult.ok :=
  ⟨rfl, fun _ _ => rfl⟩

/-- Claim C2: every location/request-shape mismatch in JWT mode, every
API-key-mode call on a header request, and every API-key-mode call with
an absent `sign` or `payload` field template makes `validate` panic
(`unreachable!` / `expect`) rather than return an ordinary
auth-rejection error; a panic outcome is distinct from both success and
the `err` rejection outcome. -/
theorem claim_C2 :
    (∀ (env : CryptoEnv) (t : AuthHeader) (secret : List Nat) (cc : jwt.ClaimCode)
        (frame : json.Value),
      AuthMode.validate env (AuthMode.JWT (AuthLocation.Header t) secret cc)
          (AuthRequest.WebsocketFrame frame)
        = VResult.panicked "check your `ws_upgrader` or `Actor::handler` implementation".toList) ∧
    (∀ (env : CryptoEnv) (fld : AuthField) (secret : List Nat) (cc : jwt.ClaimCode)
        (hm : HeaderMap),
      AuthMode.validate env (AuthMode.JWT (AuthLocation.WebSocketFrame fld) secret cc)
          (AuthRequest.HttpHeader hm)
        = VResult.panicked "check your `ws_upgrader` or `Actor::handler` implementation".toList) ∧
    (∀ (env : CryptoEnv) (af : AuthField) (secret : List Nat) (path : Str)
        (getter : Str → Option Nat) (hm : HeaderMap),
      AuthMode.validate env (AuthMode.APIKey af secret path getter) (AuthRequest.HttpHeader hm)
        = VResult.panicked "check your `Actor::handler` implementation".toList) ∧
    (∀ (env : CryptoEnv) (k : Str) (pl : Option Str) (secret : List Nat) (path : Str)
        (getter : Str → Option Nat) (frame : json.Value),
      AuthMode.validate env (AuthMode.APIKey ⟨none, k, pl⟩ secret path getter)
          (AuthRequest.WebsocketFrame frame)
        = VResult.panicked "AuthField::apikey".toList) ∧
    (∀ (env : CryptoEnv) (k sf : Str) (secret : List Nat) (path : Str)
        (getter : Str → Option Nat) (frame : json.Value),
      AuthMode.validate env (AuthMode.APIKey ⟨some sf, k, none⟩ secret path getter)
          (AuthRequest.WebsocketFrame frame)
        = VResult.panicked "AuthField::apikey".toList) ∧
    (∀ msg : Str, VResult.panicked msg ≠ VResult.ok ∧
      ∀ msg2 : Str, VResult.panicked msg ≠ VResult.err msg2) :=
  ⟨fun _ _ _ _ _ => rfl,
   fun _ _ _ _ _ => rfl,
   fun _ _ _ _ _ _ => rfl,
   fun _ _ _ _ _ _ _ => rfl,
   fun _ _ _ _ _ _ _ => rfl,
   fun _ => ⟨fun h => VResult.noConfusion h, fun _ h => VResult.noConfusion h⟩⟩

/-- Claim C3: in JWT mode with `ClaimCode::disable_all()`, validation
succeeds exactly when the signature verifies against the configured
secret: any token with a matching signature is accepted regardless of
expiry or any other claim value (the quantified `env` carries arbitrary
decoded claims and an arbitrary clock), and any token whose signature
does not match is rejected with `InvalidSignature`. -/
theorem claim_C3 (env : CryptoEnv) (secret : List Nat) (token : Str) :
    jwt.ClaimCode.disable_all.validate env secret token
      = if env.verifySignature secret token = true then Except.ok ()
        else Except.error "InvalidSignature".toList := by
  unfold jwt.ClaimCode.validate jwt.ClaimCode.disable_all
  cases h : env.verifySignature secret token <;> simp [h]

/-- Claim C6: `AuthHeader::new` succeeds exactly when the template
contains exactly one occurrence of the "{token}" placeholder marker, and
on success the prefix boundary is the text before the marker and the
suffix boundary the text after it, an empty side being `None`. -/
theorem claim_C6 (fieldName p s t : Str) :
    ((markerOccurrences token_marker t).length = 1 ↔ (AuthHeader.new fieldName t).isSome = true) ∧
    ((markerOccurrences token_marker (p ++ token_marker ++ s)).length = 1 →
      AuthHeader.new fieldName (p ++ token_marker ++ s)
        = some ⟨fieldName, ((if p = [] then none else some p),
                            (if s = [] then none else some s))⟩) := by
  constructor
  · constructor
    · intro h
      obtain ⟨a, ha⟩ := List.length_eq_one.mp h
      simp [AuthHeader.new, ha]
    · intro h
      rcases hocc : markerOccurrences token_marker t with _ | ⟨a, _ | ⟨b, more⟩⟩
      · simp [AuthHeader.new, hocc] at h
      · simp [hocc]
      · simp [AuthHeader.new, hocc] at h
  · intro h
    have hmem := mem_markerOccurrences_self p s
    obtain ⟨a, ha⟩ := List.length_eq_one.mp h
    rw [ha] at hmem
    have haeq : a = p.length := by
      have := List.mem_singleton.mp hmem
      omega
    subst haeq
    have htake : ((p ++ token_marker) ++ s).take p.length = p := by
      rw [List.append_assoc]
      exact List.take_left p _
    have hdrop : ((p ++ token_marker) ++ s).drop (p.length + token_marker.length) = s :=
      List.drop_left' (by simp [List.length_append])
    simp only [AuthHeader.new, ha, htake, hdrop]

/-- Witness for claim C6 at the template of the source's default JWT
configuration: prefix "Bearer ", marker, empty suffix. -/
theorem claim_C6_witness :
    AuthHeader.new "Authorization".toList ("Bearer ".toList ++ token_marker ++ [])
      = some ⟨"Authorization".toList, (some "Bearer ".toList, none)⟩ := by
  have h := (claim_C6 "Authorization".toList "Bearer ".toList [] []).2 (by decide)
  simpa using h

/-- Claim C1: with a header template carrying both a prefix and a suffix
boundary, `extract_token_from_header` on a header map missing the
configured field yields the missing-field error; given the field with
correctly bounded text — the value reads prefix, then the token, then
the suffix, and the boundary text does not recur at the token's edges —
it yields exactly the inner token with the boundary text stripped. -/
theorem claim_C1 (fieldName p s token : Str) (hp : p ≠ []) (hs : s ≠ []) :
    (∀ hm : HeaderMap, headerGet hm fieldName = none →
      extract_token_from_header ⟨fieldName, (some p, some s)⟩ hm
        = Except.error ("Missing field \x27".toList ++ fieldName ++ "\x27".toList)) ∧
    (∀ (hm : HeaderMap) (v : HeaderValue), headerGet hm fieldName = some v →
      headerValueToStr v = Except.ok (p ++ token ++ s) →
      p.isPrefixOf (token ++ s) = false →
      s.isSuffixOf token = false →
      extract_token_from_header ⟨fieldName, (some p, some s)⟩ hm = Except.ok token) := by
  constructor
  · intro hm hget
    simp [extract_token_from_header, hget]
  · intro hm v hget hstr hpre hsuf
    rw [List.append_assoc] at hstr
    simp only [extract_token_from_header, hget, hstr]
    rw [trimStartMatches_absorb p (token ++ s) hp,
      trimStartMatches_no_match p (token ++ s) hpre,
      trimEndMatches_absorb s token hs, trimEndMatches_no_match s token hsuf]

/-- Witness for claim C1: template `Authorization: Bearer {token} Key`
against a missing map and against `Bearer tok Key`. -/
theorem claim_C1_witness :
    extract_token_from_header
        ⟨"Authorization".toList, (some "Bearer ".toList, some " Key".toList)⟩ []
      = Except.error ("Missing field \x27".toList ++ "Authorization".toList ++ "\x27".toList) ∧
    extract_token_from_header
        ⟨"Authorization".toList, (some "Bearer ".toList, some " Key".toList)⟩
        [("Authorization".toList,
          strBytes ("Bearer ".toList ++ "tok".toList ++ " Key".toList))]
      = Except.ok "tok".toList := by
  have h := claim_C1 "Authorization".toList "Bearer ".toList " Key".toList "tok".toList
    (by decide) (by decide)
  exact ⟨h.1 [] rfl, h.2 _ _ rfl rfl (by decide) (by decide)⟩

/-- Claim C7: trimming an absent literal boundary is a no-op, not a
failure: when the text does not start with the prefix boundary the start
trim leaves it unchanged, when it does not end with the suffix boundary
the end trim leaves it unchanged, and `extract_token_from_header`
then returns the text unchanged rather than an error. -/
theorem claim_C7 (p q t : Str) :
    (p.isPrefixOf t = false → trimStartMatches p t = t) ∧
    (q.isSuffixOf t = false → trimEndMatches q t = t) ∧
    (∀ (fieldName : Str) (hm : HeaderMap) (v : HeaderValue),
      headerGet hm fieldName = some v → headerValueToStr v = Except.ok t →
      p.isPrefixOf t = false → q.isSuffixOf t = false →
      extract_token_from_header ⟨fieldName, (some p, some q)⟩ hm = Except.ok t) := by
  refine ⟨trimStartMatches_no_match p t, trimEndMatches_no_match q t, ?_⟩
  intro fieldName hm v hget hstr hpre hsuf
  simp only [extract_token_from_header, hget, hstr]
  rw [trimStartMatches_no_match p t hpre, trimEndMatches_no_match q t hsuf]

/-- Witness for claim C7: a value `tok` carrying neither the `Bearer `
prefix boundary nor the ` Key` suffix boundary is returned unchanged. -/
theorem claim_C7_witness :
    extract_token_from_header
        ⟨"Authorization".toList, (some "Bearer ".toList, some " Key".toList)⟩
        [("Authorization".toList, strBytes "tok".toList)]
      = Except.ok "tok".toList :=
  (claim_C7 "Bearer ".toList " Key".toList "tok".toList).2.2 "Authorization".toList _ _
    rfl rfl (by decide) (by decide)

/-- Claim C10: boundary stripping removes every repeated leading
occurrence of the prefix boundary and every repeated trailing occurrence
of the suffix boundary (`trim_start_matches` / `trim_end_matches`
semantics), not a single literal occurrence: all `m` leading copies and
all `n` trailing copies of the boundary text are stripped before the
token is returned. -/
theorem claim_C10 (p q t : Str) (m n : Nat) (hp : p ≠ []) (hq : q ≠ [])
    (h1 : p.isPrefixOf (t ++ repeatPat q n) = false) (h2 : q.isSuffixOf t = false) :
    trimStartMatches p (repeatPat p m ++ (t ++ repeatPat q n)) = t ++ repeatPat q n ∧
    trimEndMatches q (t ++ repeatPat q n) = t ∧
    (∀ (fieldName : Str) (hm : HeaderMap) (v : HeaderValue),
      headerGet hm fieldName = some v →
      headerValueToStr v = Except.ok (repeatPat p m ++ (t ++ repeatPat q n)) →
      extract_token_from_header ⟨fieldName, (some p, some q)⟩ hm = Except.ok t) := by
  have hstart := trimStartMatches_repeat p (t ++ repeatPat q n) hp h1 m
  have hend := trimEndMatches_repeat q t hq h2 n
  refine ⟨hstart, hend, ?_⟩
  intro fieldName hm v hget hstr
  simp only [extract_token_from_header, hget, hstr]
  rw [hstart, hend]

/-- Witness for claim C10: `Bearer Bearer tok Key Key` with prefix
boundary `Bearer ` and suffix boundary ` Key` yields `tok`: both
repetitions of each boundary are stripped. -/
theorem claim_C10_witness :
    extract_token_from_header
        ⟨"Authorization".toList, (some "Bearer ".toList, some " Key".toList)⟩
        [("Authorization".toList,
          strBytes (repeatPat "Bearer ".toList 2 ++ ("tok".toList ++ repeatPat " Key".toList 2)))]
      = Except.ok "tok".toList :=
  (claim_C10 "Bearer ".toList " Key".toList "tok".toList 2 2 (by decide) (by decide)
      (by decide) (by decide)).2.2
    "Authorization".toList _ _ rfl rfl

/-- Claim C4: in API-key mode, for a structured-frame request carrying
the key field (and a supplied signature), if the injected nonce lookup
returns `None` for the presented API key then `validate` fails with the
invalid-key rejection (`InvalidCredential`), whatever the supplied
signature and whatever the MAC primitive would have computed: the
conclusion holds for every `CryptoEnv`, so the MAC check is never
reached. -/
theorem claim_C4 (fldKey fldSign fldPayload : Str) (payload : json.Value)
    (apikeyStr sigStr : Str) (secret : List Nat) (path : Str) (getter : Str → Option Nat)
    (hkey : get_payload_from payload fldKey = Except.ok apikeyStr)
    (hsig : get_payload_from payload fldSign = Except.ok sigStr)
    (hnonce : getter apikeyStr = none) :
    ∀ env : CryptoEnv,
      AuthMode.validate env
          (AuthMode.APIKey ⟨some fldSign, fldKey, some fldPayload⟩ secret path getter)
          (AuthRequest.WebsocketFrame payload)
        = VResult.err ("invalid \"".toList ++ fldKey ++ "\"".toList) := by
  intro env
  simp only [AuthMode.validate, hkey, hsig, hnonce]

/-- Witness for claim C4: a frame carrying key `k1` and signature `s1`,
a lookup that knows no keys, and a trivial environment. -/
theorem claim_C4_witness :
    AuthMode.validate
        ⟨fun _ _ => false, fun _ => ⟨none, none, none, none⟩, 0, none, none,
          fun _ _ => [], fun _ => []⟩
        (AuthMode.APIKey ⟨some "sig".toList, "apikey".toList, some "data".toList⟩ []
          "/p".toList (fun _ => none))
        (AuthRequest.WebsocketFrame (json.Value.obj
          [("apikey".toList, json.Value.str "k1".toList),
           ("sig".toList, json.Value.str "s1".toList)]))
      = VResult.err ("invalid \"".toList ++ "apikey".toList ++ "\"".toList) :=
  claim_C4 "apikey".toList "sig".toList "data".toList
    (json.Value.obj
      [("apikey".toList, json.Value.str "k1".toList),
       ("sig".toList, json.Value.str "s1".toList)])
    "k1".toList "s1".toList [] "/p".toList (fun _ => none) rfl rfl rfl _

/-- Counterexample for claim C5 as stated: `extract_token_from_wsframe`
does not produce three distinct error outcomes — an object missing the
field and an object holding a non-string value at the field return the
very same error value, so the claimed `MissingField` / `Malformed`
distinction does not exist in the code. -/
theorem claim_C5_counterexample :
    extract_token_from_wsframe "auth".toList (json.Value.obj [])
        = extract_token_from_wsframe "auth".toList
            (json.Value.obj [("auth".toList, json.Value.num 1)]) ∧
    (json.Value.obj []).get "auth".toList = none ∧
    (json.Value.obj [("auth".toList, json.Value.num 1)]).get "auth".toList
        = some (json.Value.num 1) ∧
    (json.Value.num 1).as_str = none ∧
    extract_token_from_wsframe "auth".toList (json.Value.obj [])
        = Except.error ("\"".toList ++ "auth".toList
            ++ "\" not found or it\x27s not a `string`".toList) :=
  ⟨rfl, rfl, rfl, rfl, rfl⟩

/-- Claim C5 (amended): a non-object frame yields the
invalid-request-shape error; an object frame missing the named field and
an object frame whose value at the named field is not a string both
yield the same combined not-found-or-not-a-string error — two distinct
error outcomes, with the missing-field and wrong-type cases not
distinguished from each other. -/
theorem claim_C5 (fieldName : Str) :
    (∀ dv : json.Value, dv.is_object = false →
      extract_token_from_wsframe fieldName dv
        = Except.error "request must be in type object".toList) ∧
    (∀ entries, (json.Value.obj entries).get fieldName = none →
      extract_token_from_wsframe fieldName (json.Value.obj entries)
        = Except.error ("\"".toList ++ fieldName
            ++ "\" not found or it\x27s not a `string`".toList)) ∧
    (∀ entries v, (json.Value.obj entries).get fieldName = some v → v.as_str = none →
      extract_token_from_wsframe fieldName (json.Value.obj entries)
        = Except.error ("\"".toList ++ fieldName
            ++ "\" not found or it\x27s not a `string`".toList)) := by
  refine ⟨?_, ?_, ?_⟩
  · intro dv hobj
    cases dv <;> simp_all [extract_token_from_wsframe, json.Value.is_object]
  · intro entries hget
    simp [extract_token_from_wsframe, hget]
  · intro entries v hget hstr
    simp [extract_token_from_wsframe, hget, hstr]

/-- Witness for claim C5 (amended): an array frame, an object without
the field, and an object with a boolean at the field. -/
theorem claim_C5_witness :
    extract_token_from_wsframe "auth".toList (json.Value.arr [])
        = Except.error "request must be in type object".toList ∧
    extract_token_from_wsframe "auth".toList (json.Value.obj [("x".toList, json.Value.null)])
        = Except.error ("\"".toList ++ "auth".toList
            ++ "\" not found or it\x27s not a `string`".toList) ∧
    extract_token_from_wsframe "auth".toList
        (json.Value.obj [("auth".toList, json.Value.bool true)])
        = Except.error ("\"".toList ++ "auth".toList
            ++ "\" not found or it\x27s not a `string`".toList) :=
  ⟨(claim_C5 "auth".toList).1 _ rfl,
   (claim_C5 "auth".toList).2.1 _ rfl,
   (claim_C5 "auth".toList).2.2 _ _ rfl rfl⟩

end WebsocketCore
